import Mathlib

/-!
Shallow embedding of the PostgreSQL storage backend of the Kode agent SDK
(`src/infra/db/postgres/postgres-store.ts`), together with proofs about the
store operations named in the specification.

Modelling conventions:
* The four relations created by `createTables` (`agents`, `messages`,
  `tool_calls`, `snapshots`) are modelled as lists of row structures inside a
  `DB` state.  The schema constraints declared there (primary keys, the unique
  index on `messages(agent_id, seq)` from `createIndexes`, the
  `FOREIGN KEY ... ON DELETE CASCADE` clauses) are part of the embedding of
  insert/delete statements.
* JSONB document values round-trip structurally (`JSON.stringify` on write,
  parsed JSONB on read); they are modelled by a recursive `Json` type carried
  through storage unchanged.  Timestamp-valued columns are modelled as
  integers ordered chronologically.
* JavaScript truthiness coalescing in the store code (`x ? y : null`,
  `x || null`, `x || undefined`) is modelled explicitly for fields whose
  TypeScript type admits falsy values: optional numbers collapse `0` and
  optional strings collapse `""` to an absent value.  Fields whose values are
  JS objects (documents, bookmark records) are always truthy, so for them the
  coalescing is exactly a presence test on the `Option`.
* The `BEGIN`/`COMMIT`/`ROLLBACK` transactions of `saveMessages` and
  `saveToolCallRecords` are modelled by running the statement sequence on a
  working state and, on the first statement error, returning the caller's
  original state together with the re-thrown error (`DB × Option DbError`).
* A store whose asynchronous `initialize()` has not yet created the tables is
  modelled by `ready = false`; every SQL statement against it fails with the
  raw backend error `DbError.undefinedTable` (PostgreSQL "relation does not
  exist"), which is what the unguarded `client.query` calls surface.
-/

/-- Recursive JSON document value (string/number/bool/null/object/array), the
value domain of the JSONB columns. -/
inductive Json where
  | null : Json
  | bool : Bool → Json
  | num : Int → Json
  | str : String → Json
  | arr : List Json → Json
  | obj : List (String × Json) → Json
deriving Repr

/-- Open key/value document, the shape of the TypeScript object-typed fields
(`metadata`, `result`, ...).  A JS object is always truthy. -/
abbrev JsonObj := List (String × Json)

/-- Message role, constrained by the `CHECK (role IN (...))` clause of the
`messages` table. -/
inductive Role where
  | user : Role
  | assistant : Role
  | system : Role
deriving Repr, DecidableEq

/-- Tool-call lifecycle tag. Modelled from the spec: `ToolCallState` lives in
`src/core/types.ts`, which is not part of the provided sources; §4.4 of the
spec lists the states `PENDING → (APPROVED|DENIED) → RUNNING →
(COMPLETED|FAILED)`. -/
inductive ToolCallState where
  | PENDING : ToolCallState
  | APPROVED : ToolCallState
  | DENIED : ToolCallState
  | RUNNING : ToolCallState
  | COMPLETED : ToolCallState
  | FAILED : ToolCallState
deriving Repr, DecidableEq

/-- Breakpoint state tag. Modelled from the spec: `BreakpointState` lives in
`src/core/types.ts`, which is not part of the provided sources; §4.4 of the
spec lists `RUNNING`, `AWAITING_APPROVAL`, `PAUSED`, `DONE`.  Every value is a
non-empty string at runtime, hence truthy. -/
inductive BreakpointState where
  | RUNNING : BreakpointState
  | AWAITING_APPROVAL : BreakpointState
  | PAUSED : BreakpointState
  | DONE : BreakpointState
deriving Repr, DecidableEq

/-- Bookmark into the event timeline. Modelled from the spec (§3): a
`{seq, timestamp}` pointer; a JS object, hence always truthy. -/
structure Bookmark where
  seq : Int
  timestamp : Int
deriving Repr, DecidableEq

/-- Conversation message (`role`, content blocks, optional metadata), as
consumed and produced by `saveMessages`/`loadMessages`. -/
structure Message where
  role : Role
  content : Json
  metadata : Option JsonObj
deriving Repr

/-- Agent metadata record, the value saved by `saveInfo` and returned by
`loadInfo`. Field set taken from the columns of the `agents` table and the
`AgentInfo` usage in `postgres-store.ts`. -/
structure AgentInfo where
  agentId : String
  templateId : String
  createdAt : Int
  configVersion : String
  lineage : List String
  messageCount : Int
  lastSfpIndex : Int
  lastBookmark : Option Bookmark
  breakpoint : Option BreakpointState
  metadata : Json
deriving Repr

/-- Tool call record, the value saved by `saveToolCallRecords` and returned by
`loadToolCallRecords`. Field set taken from the columns of the `tool_calls`
table and the record usage in `postgres-store.ts`. -/
structure ToolCallRecord where
  id : String
  name : String
  input : Json
  state : ToolCallState
  approval : Json
  result : Option JsonObj
  error : Option String
  isError : Option Bool
  startedAt : Option Int
  completedAt : Option Int
  durationMs : Option Int
  createdAt : Int
  updatedAt : Int
  auditTrail : Json
deriving Repr

/-- Point-in-time snapshot, the value saved by `saveSnapshot`. Field set taken
from the columns of the `snapshots` table. -/
structure Snapshot where
  id : String
  messages : List Message
  lastSfpIndex : Int
  lastBookmark : Bookmark
  createdAt : Int
  metadata : Option JsonObj
deriving Repr

/-- Row of the `agents` table. -/
structure AgentRow where
  agent_id : String
  template_id : String
  created_at : Int
  config_version : String
  lineage : List String
  message_count : Int
  last_sfp_index : Int
  last_bookmark : Option Bookmark
  breakpoint : Option BreakpointState
  metadata : Json
deriving Repr

/-- Row of the `messages` table. -/
structure MessageRow where
  id : String
  agent_id : String
  role : Role
  content : Json
  seq : Nat
  metadata : Option JsonObj
  created_at : Int
deriving Repr

/-- Row of the `tool_calls` table. -/
structure ToolCallRow where
  id : String
  agent_id : String
  name : String
  input : Json
  state : ToolCallState
  approval : Json
  result : Option JsonObj
  error : Option String
  is_error : Option Bool
  started_at : Option Int
  completed_at : Option Int
  duration_ms : Option Int
  created_at : Int
  updated_at : Int
  audit_trail : Json
deriving Repr

/-- Row of the `snapshots` table. -/
structure SnapshotRow where
  agent_id : String
  snapshot_id : String
  messages : List Message
  last_sfp_index : Int
  last_bookmark : Bookmark
  created_at : Int
  metadata : Option JsonObj
deriving Repr

/-- Errors surfaced by the modelled SQL statements.  `undefinedTable` is the
raw PostgreSQL "relation does not exist" error raised when a statement runs
before `initialize()` has created the tables; `uniqueViolation` and
`foreignKeyViolation` are constraint errors.  `notInitialized` is modelled
from the spec: the error taxonomy of §7 (`NotInitialized`: backend not ready)
belongs to code outside the provided sources; the Postgres store itself never
produces it. -/
inductive DbError where
  | undefinedTable : DbError
  | uniqueViolation : DbError
  | foreignKeyViolation : DbError
  | notInitialized : DbError
deriving Repr, DecidableEq

/-- Database state of one `PostgresStore`: the four relations created by
`createTables`, plus a flag telling whether that schema creation has
completed (`initialize()` resolved). -/
structure DB where
  ready : Bool
  agents : List AgentRow
  messages : List MessageRow
  tool_calls : List ToolCallRow
  snapshots : List SnapshotRow
deriving Repr

/-- JavaScript `x || null` / `x || undefined` on an optional number: `0` is
falsy and collapses to the absent value. -/
def jsIntOrNone : Option Int → Option Int
  | some n => if n = 0 then none else some n
  | none => none

/-- JavaScript `x || null` / `x || undefined` on an optional string: `""` is
falsy and collapses to the absent value. -/
def jsStrOrNone : Option String → Option String
  | some s => if s = "" then none else some s
  | none => none

/-- SQL `LIKE` matching as PostgreSQL interprets the pattern: `%` matches any
substring, `_` matches exactly one character, backslash escapes the following
character, every other character matches itself. -/
def suffixes : List Char → List (List Char)
  | [] => [[]]
  | c :: s => (c :: s) :: suffixes s

/-- Recursive worker for SQL `LIKE`; structural on the pattern so that the
kernel can evaluate it on concrete inputs. -/
def likeMatch : List Char → List Char → Bool
  | [], s => s.isEmpty
  | '%' :: ps, s => (suffixes s).any (fun t => likeMatch ps t)
  | '_' :: ps, _ :: s => likeMatch ps s
  | '_' :: _, [] => false
  | '\\' :: p :: ps, c :: s => p == c && likeMatch ps s
  | '\\' :: _ :: _, [] => false
  | ['\\'], _ => false
  | p :: ps, c :: s => p == c && likeMatch ps s
  | _ :: _, [] => false

/-- Aggregate statistics returned by `aggregateStats`; the grouped counts are
the rows of the two `GROUP BY` queries. -/
structure AgentStats where
  totalMessages : Nat
  totalToolCalls : Nat
  totalSnapshots : Nat
  avgMessagesPerSession : Nat
  toolCallsByName : List (String × Nat)
  toolCallsByState : List (ToolCallState × Nat)
deriving Repr

namespace PostgresStore

/-- Lookup of the `agents` row with the given id (primary-key access). -/
def findAgent (db : DB) (aid : String) : Option AgentRow :=
  db.agents.find? (fun r => r.agent_id == aid)

/-- Row built by the `INSERT INTO messages` statement of `saveMessages` for
the message at position `idx`: a freshly generated id, the owning agent, the
list position as `seq`, and `Date.now()` as `created_at`. -/
def messageRowOf (aid : String) (m : Message) (mid : String) (idx : Nat) (now : Int) : MessageRow :=
  { id := mid
    agent_id := aid
    role := m.role
    content := m.content
    metadata := m.metadata
    seq := idx
    created_at := now }

/-- Semantics of one `INSERT INTO messages` statement: it fails on a
duplicate primary key `id`, on a duplicate `(agent_id, seq)` pair (the unique
index `idx_messages_agent_seq`), or on a missing `agents` row (the foreign
key); otherwise the row is added. -/
def insertMessageRow (db : DB) (row : MessageRow) : Except DbError DB :=
  if db.messages.any (fun m => m.id == row.id) then
    .error .uniqueViolation
  else if db.messages.any (fun m => m.agent_id == row.agent_id && m.seq == row.seq) then
    .error .uniqueViolation
  else if (findAgent db row.agent_id).isNone then
    .error .foreignKeyViolation
  else
    .ok { db with messages := db.messages ++ [row] }

/-- Rows produced by the insert loop of `saveMessages`, starting at list
position `idx`; `genId n` is the value of the n-th `generateMessageId()`
call. -/
def messageRowsOf (aid : String) (msgs : List Message) (genId : Nat → String) (now : Int) (idx : Nat) : List MessageRow :=
  match msgs with
  | [] => []
  | m :: rest => messageRowOf aid m (genId idx) idx now :: messageRowsOf aid rest genId now (idx + 1)

/-- Insert loop of `saveMessages` run inside the open transaction; stops at
the first failing statement, returning the partially mutated working state
together with the error. -/
def insertMessageRows (db : DB) (aid : String) (msgs : List Message) (genId : Nat → String) (now : Int) (idx : Nat) : DB × Option DbError :=
  match msgs with
  | [] => (db, none)
  | m :: rest =>
    match insertMessageRow db (messageRowOf aid m (genId idx) idx now) with
    | .ok db1 => insertMessageRows db1 aid rest genId now (idx + 1)
    | .error e => (db, some e)

/-- Effect of `UPDATE agents SET message_count = $1 WHERE agent_id = $2`; an
absent agent row makes it a no-op (zero rows updated, no error). -/
def updateMessageCount (db : DB) (aid : String) (n : Int) : DB :=
  { db with agents := db.agents.map (fun r =>
      if r.agent_id == aid then { r with message_count := n } else r) }

/-- Embedding of `PostgresStore.saveMessages`: inside one transaction, delete
the agent's old messages, insert the new list with positional `seq` values
and fresh ids, then update `message_count` on the `agents` row; `COMMIT` on
success, `ROLLBACK` (returning the caller's original state) and re-throw of
the original error otherwise.  `genId` supplies the `generateMessageId()`
results and `now` the `Date.now()` timestamp. -/
def saveMessages (db : DB) (agentId : String) (messages : List Message) (genId : Nat → String) (now : Int) : DB × Option DbError :=
  if db.ready = false then
    (db, some .undefinedTable)
  else
    match insertMessageRows
        { db with messages := db.messages.filter (fun m => m.agent_id != agentId) }
        agentId messages genId now 0 with
    | (db2, none) => (updateMessageCount db2 agentId messages.length, none)
    | (_, some e) => (db, some e)

/-- Embedding of `PostgresStore.loadMessages`: `SELECT role, content,
metadata FROM messages WHERE agent_id = $1 ORDER BY seq ASC`, mapped back to
`Message` values (`metadata` is a JS object when present, so the
`row.metadata || undefined` coalescing is a presence test). -/
def loadMessages (db : DB) (agentId : String) : Except DbError (List Message) :=
  if db.ready = false then
    .error .undefinedTable
  else
    let rows := db.messages.filter (fun m => m.agent_id == agentId)
    let sorted := rows.insertionSort (fun a b => a.seq ≤ b.seq)
    .ok (sorted.map (fun row => { role := row.role, content := row.content, metadata := row.metadata }))

/-- Row built by the `INSERT INTO tool_calls` statement of
`saveToolCallRecords`, with the JS falsy coalescing of
`record.error || null`, `record.startedAt || null`, `record.completedAt ||
null` and `record.durationMs || null` applied; `record.result` and the
required document fields are JS objects, so their `?:` test is a presence
test. -/
def toolCallRowOf (aid : String) (r : ToolCallRecord) : ToolCallRow :=
  { id := r.id
    agent_id := aid
    name := r.name
    input := r.input
    state := r.state
    approval := r.approval
    result := r.result
    error := jsStrOrNone r.error
    is_error := r.isError
    started_at := jsIntOrNone r.startedAt
    completed_at := jsIntOrNone r.completedAt
    duration_ms := jsIntOrNone r.durationMs
    created_at := r.createdAt
    updated_at := r.updatedAt
    audit_trail := r.auditTrail }

/-- Semantics of one `INSERT INTO tool_calls` statement: it fails on a
duplicate primary key `id` or on a missing `agents` row (the foreign key). -/
def insertToolCallRow (db : DB) (row : ToolCallRow) : Except DbError DB :=
  if db.tool_calls.any (fun t => t.id == row.id) then
    .error .uniqueViolation
  else if (findAgent db row.agent_id).isNone then
    .error .foreignKeyViolation
  else
    .ok { db with tool_calls := db.tool_calls ++ [row] }

/-- Insert loop of `saveToolCallRecords` run inside the open transaction;
stops at the first failing statement. -/
def insertToolCallRows (db : DB) (aid : String) (records : List ToolCallRecord) : DB × Option DbError :=
  match records with
  | [] => (db, none)
  | r :: rest =>
    match insertToolCallRow db (toolCallRowOf aid r) with
    | .ok db1 => insertToolCallRows db1 aid rest
    | .error e => (db, some e)

/-- Embedding of `PostgresStore.saveToolCallRecords`: inside one transaction,
delete the agent's old records and insert the new list; `COMMIT` on success,
`ROLLBACK` and re-throw otherwise. -/
def saveToolCallRecords (db : DB) (agentId : String) (records : List ToolCallRecord) : DB × Option DbError :=
  if db.ready = false then
    (db, some .undefinedTable)
  else
    match insertToolCallRows
        { db with tool_calls := db.tool_calls.filter (fun t => t.agent_id != agentId) }
        agentId records with
    | (db2, none) => (db2, none)
    | (_, some e) => (db, some e)

/-- Record rebuilt by `loadToolCallRecords` from one row, with the
`row.x || undefined` coalescing applied to `result`, `error`, `started_at`,
`completed_at` and `duration_ms`. -/
def toolCallRecordOfRow (row : ToolCallRow) : ToolCallRecord :=
  { id := row.id
    name := row.name
    input := row.input
    state := row.state
    approval := row.approval
    result := row.result
    error := jsStrOrNone row.error
    isError := row.is_error
    startedAt := jsIntOrNone row.started_at
    completedAt := jsIntOrNone row.completed_at
    durationMs := jsIntOrNone row.duration_ms
    createdAt := row.created_at
    updatedAt := row.updated_at
    auditTrail := row.audit_trail }

/-- Embedding of `PostgresStore.loadToolCallRecords`: `SELECT ... FROM
tool_calls WHERE agent_id = $1 ORDER BY created_at ASC`. -/
def loadToolCallRecords (db : DB) (agentId : String) : Except DbError (List ToolCallRecord) :=
  if db.ready = false then
    .error .undefinedTable
  else
    let rows := db.tool_calls.filter (fun t => t.agent_id == agentId)
    let sorted := rows.insertionSort (fun a b => a.created_at ≤ b.created_at)
    .ok (sorted.map toolCallRecordOfRow)

/-- Row built by the `INSERT INTO snapshots` statement of `saveSnapshot`
(`snapshot.metadata ? ... : null` is a presence test on a JS object). -/
def snapshotRowOf (aid : String) (s : Snapshot) : SnapshotRow :=
  { agent_id := aid
    snapshot_id := s.id
    messages := s.messages
    last_sfp_index := s.lastSfpIndex
    last_bookmark := s.lastBookmark
    created_at := s.createdAt
    metadata := s.metadata }

/-- Embedding of `PostgresStore.saveSnapshot`: `INSERT ... ON CONFLICT
(agent_id, snapshot_id) DO UPDATE SET ...` — an upsert keyed by the composite
primary key; a plain insert additionally checks the foreign key on
`agent_id`. -/
def saveSnapshot (db : DB) (agentId : String) (s : Snapshot) : Except DbError DB :=
  if db.ready = false then
    .error .undefinedTable
  else if db.snapshots.any (fun r => r.agent_id == agentId && r.snapshot_id == s.id) then
    .ok { db with snapshots := db.snapshots.map (fun r =>
      if r.agent_id == agentId && r.snapshot_id == s.id then snapshotRowOf agentId s else r) }
  else if (findAgent db agentId).isNone then
    .error .foreignKeyViolation
  else
    .ok { db with snapshots := db.snapshots ++ [snapshotRowOf agentId s] }

/-- Snapshot rebuilt by `loadSnapshot`/`listSnapshots` from one row. -/
def snapshotOfRow (row : SnapshotRow) : Snapshot :=
  { id := row.snapshot_id
    messages := row.messages
    lastSfpIndex := row.last_sfp_index
    lastBookmark := row.last_bookmark
    createdAt := row.created_at
    metadata := row.metadata }

/-- Embedding of `PostgresStore.loadSnapshot`: point lookup on the composite
key. -/
def loadSnapshot (db : DB) (agentId : String) (snapshotId : String) : Except DbError (Option Snapshot) :=
  if db.ready = false then
    .error .undefinedTable
  else
    .ok ((db.snapshots.find? (fun r => r.agent_id == agentId && r.snapshot_id == snapshotId)).map snapshotOfRow)

/-- Embedding of `PostgresStore.listSnapshots`: `SELECT ... WHERE agent_id =
$1 ORDER BY created_at DESC`. -/
def listSnapshots (db : DB) (agentId : String) : Except DbError (List Snapshot) :=
  if db.ready = false then
    .error .undefinedTable
  else
    let rows := db.snapshots.filter (fun r => r.agent_id == agentId)
    let sorted := rows.insertionSort (fun a b => b.created_at ≤ a.created_at)
    .ok (sorted.map snapshotOfRow)

/-- Row built by the `INSERT INTO agents` statement of `saveInfo`.  Note that
the SQL parameters are taken from `info` (in particular `info.agentId` keys
the row), not from the `agentId` argument of the method. -/
def agentRowOf (info : AgentInfo) : AgentRow :=
  { agent_id := info.agentId
    template_id := info.templateId
    created_at := info.createdAt
    config_version := info.configVersion
    lineage := info.lineage
    message_count := info.messageCount
    last_sfp_index := info.lastSfpIndex
    last_bookmark := info.lastBookmark
    breakpoint := info.breakpoint
    metadata := info.metadata }

/-- Embedding of `PostgresStore.saveInfo`: `INSERT ... ON CONFLICT (agent_id)
DO UPDATE SET ...` — an upsert keyed by `info.agentId`; the `agentId`
method argument does not occur in the SQL parameters. -/
def saveInfo (db : DB) (agentId : String) (info : AgentInfo) : Except DbError DB :=
  if db.ready = false then
    .error .undefinedTable
  else if db.agents.any (fun r => r.agent_id == info.agentId) then
    .ok { db with agents := db.agents.map (fun r =>
      if r.agent_id == info.agentId then agentRowOf info else r) }
  else
    .ok { db with agents := db.agents ++ [agentRowOf info] }

/-- Info rebuilt by `loadInfo` from one row (`row.last_bookmark || undefined`
and `if (row.breakpoint)` are presence tests on truthy values). -/
def agentInfoOfRow (row : AgentRow) : AgentInfo :=
  { agentId := row.agent_id
    templateId := row.template_id
    createdAt := row.created_at
    configVersion := row.config_version
    lineage := row.lineage
    messageCount := row.message_count
    lastSfpIndex := row.last_sfp_index
    lastBookmark := row.last_bookmark
    breakpoint := row.breakpoint
    metadata := row.metadata }

/-- Embedding of `PostgresStore.loadInfo`: point lookup on `agent_id`,
returning `undefined` when no row matches. -/
def loadInfo (db : DB) (agentId : String) : Except DbError (Option AgentInfo) :=
  if db.ready = false then
    .error .undefinedTable
  else
    .ok ((findAgent db agentId).map agentInfoOfRow)

/-- Embedding of `PostgresStore.exists`: `SELECT 1 FROM agents WHERE
agent_id = $1` with a non-empty-result test. -/
def «exists» (db : DB) (agentId : String) : Except DbError Bool :=
  if db.ready = false then
    .error .undefinedTable
  else
    .ok ((findAgent db agentId).isSome)

/-- Embedding of `PostgresStore.delete`: `DELETE FROM agents WHERE agent_id =
$1`, which by the `ON DELETE CASCADE` foreign keys of `createTables` also
removes the agent's `messages`, `tool_calls` and `snapshots` rows. -/
def delete (db : DB) (agentId : String) : Except DbError DB :=
  if db.ready = false then
    .error .undefinedTable
  else
    .ok { db with
      agents := db.agents.filter (fun r => r.agent_id != agentId)
      messages := db.messages.filter (fun m => m.agent_id != agentId)
      tool_calls := db.tool_calls.filter (fun t => t.agent_id != agentId)
      snapshots := db.snapshots.filter (fun r => r.agent_id != agentId) }

/-- Selection step of `PostgresStore.list`: with a truthy prefix argument the
`WHERE agent_id LIKE $1` clause filters on the raw interpolated pattern
`pre + "%"`; with no argument, or with the falsy `""` (JS `if (prefix)`),
the `WHERE` clause is omitted. -/
def listWhere (agents : List AgentRow) (pre : Option String) : List AgentRow :=
  match pre with
  | some p =>
    if p ≠ "" then agents.filter (fun r => likeMatch (p ++ "%").data r.agent_id.data)
    else agents
  | none => agents

/-- Predicate form of the selection of `PostgresStore.list`, used to state
its semantics: an agentId is selected when the prefix argument is absent or
falsy, or when the `LIKE` pattern `pre ++ "%"` matches it. -/
def listSelects (pre : Option String) (aid : String) : Bool :=
  match pre with
  | some p => if p ≠ "" then likeMatch (p ++ "%").data aid.data else true
  | none => true

/-- Embedding of `PostgresStore.list`: the selected agents ordered by
`created_at DESC`, projected to their ids. -/
def list (db : DB) (pre : Option String) : Except DbError (List String) :=
  if db.ready = false then
    .error .undefinedTable
  else
    .ok (((listWhere db.agents pre).insertionSort
      (fun a b => b.created_at ≤ a.created_at)).map (fun r => r.agent_id))

/-- Embedding of `PostgresStore.aggregateStats`: the three `COUNT(*)` queries
and the two `GROUP BY` queries over the agent's rows (group keys listed in
order of first appearance). -/
def aggregateStats (db : DB) (agentId : String) : Except DbError AgentStats :=
  if db.ready = false then
    .error .undefinedTable
  else
    let msgs := db.messages.filter (fun m => m.agent_id == agentId)
    let tcs := db.tool_calls.filter (fun t => t.agent_id == agentId)
    let snaps := db.snapshots.filter (fun r => r.agent_id == agentId)
    let names := (tcs.map (fun t => t.name)).dedup
    let states := (tcs.map (fun t => t.state)).dedup
    .ok
      { totalMessages := msgs.length
        totalToolCalls := tcs.length
        totalSnapshots := snaps.length
        avgMessagesPerSession := msgs.length
        toolCallsByName := names.map (fun n => (n, (tcs.filter (fun t => t.name == n)).length))
        toolCallsByState := states.map (fun st => (st, (tcs.filter (fun t => t.state == st)).length)) }

/-- Pairwise distinctness of `(agent_id, seq)` over the `messages` table: the
invariant enforced by the unique index `idx_messages_agent_seq`. -/
def UniqAgentSeq (l : List MessageRow) : Prop :=
  l.Pairwise fun a b => ¬(a.agent_id = b.agent_id ∧ a.seq = b.seq)

/-- Agent row used to evaluate the theorems at concrete inputs. -/
def wAgentRow : AgentRow :=
  { agent_id := "a"
    template_id := "t"
    created_at := 0
    config_version := "v"
    lineage := []
    message_count := 0
    last_sfp_index := -1
    last_bookmark := none
    breakpoint := none
    metadata := Json.obj [] }

/-- Ready store containing exactly the agent `"a"`. -/
def wDB : DB :=
  { ready := true, agents := [wAgentRow], messages := [], tool_calls := [], snapshots := [] }

/-- Store whose `initialize()` has not completed: no tables exist yet. -/
def wDBNotReady : DB :=
  { ready := false, agents := [], messages := [], tool_calls := [], snapshots := [] }

/-- Ready store with no agents. -/
def wDBEmpty : DB :=
  { ready := true, agents := [], messages := [], tool_calls := [], snapshots := [] }

/-- Two concrete messages. -/
def wMsgs : List Message :=
  [ { role := .user, content := Json.str "hi", metadata := none },
    { role := .assistant, content := Json.str "yo", metadata := none } ]

/-- Concrete stand-in for `generateMessageId()`. -/
def wGen : Nat → String := fun n => "m" ++ toString n

/-- Agent info whose `agentId` is `"b"`, used to probe `saveInfo`'s keying. -/
def cexInfoB : AgentInfo :=
  { agentId := "b"
    templateId := "t"
    createdAt := 0
    configVersion := "v"
    lineage := ["p1"]
    messageCount := 0
    lastSfpIndex := -1
    lastBookmark := some { seq := 3, timestamp := 5 }
    breakpoint := some .PAUSED
    metadata := Json.obj [("k", Json.num 1)] }

/-- Tool call record that completed in under a millisecond: `durationMs = 0`
is falsy in JavaScript. -/
def wRecDur0 : ToolCallRecord :=
  { id := "c1"
    name := "fs_read"
    input := Json.obj [("path", Json.str "/t")]
    state := .COMPLETED
    approval := Json.obj [("required", Json.bool false)]
    result := some [("content", Json.str "x")]
    error := none
    isError := some false
    startedAt := some 10
    completedAt := some 10
    durationMs := some 0
    createdAt := 1
    updatedAt := 1
    auditTrail := Json.arr [] }

/-- Tool call record with no JS-falsy optional scalars. -/
def wRecGood : ToolCallRecord :=
  { id := "c2"
    name := "fs_read"
    input := Json.obj [("path", Json.str "/t")]
    state := .COMPLETED
    approval := Json.obj [("required", Json.bool false)]
    result := some [("content", Json.str "x")]
    error := none
    isError := some false
    startedAt := some 10
    completedAt := some 15
    durationMs := some 5
    createdAt := 1
    updatedAt := 2
    auditTrail := Json.arr [Json.obj [("state", Json.str "PENDING")]] }

/-- Single concrete message for the statistics fixture. -/
def wMsg1 : Message :=
  { role := .user, content := Json.str "hi", metadata := none }

/-- Concrete snapshot. -/
def wSnap : Snapshot :=
  { id := "s1"
    messages := [wMsg1]
    lastSfpIndex := 0
    lastBookmark := { seq := 1, timestamp := 2 }
    createdAt := 3
    metadata := none }

/-- Ready store holding one message, one tool call and one snapshot for the
agent `"a"`. -/
def wDBStats : DB :=
  { ready := true
    agents := [wAgentRow]
    messages := [messageRowOf "a" wMsg1 "m0" 0 5]
    tool_calls := [toolCallRowOf "a" wRecGood]
    snapshots := [snapshotRowOf "a" wSnap] }

/-- Statistics that `aggregateStats` produces on `wDBStats` for `"a"`. -/
def wStats : AgentStats :=
  { totalMessages := 1
    totalToolCalls := 1
    totalSnapshots := 1
    avgMessagesPerSession := 1
    toolCallsByName := [("fs_read", 1)]
    toolCallsByState := [(.COMPLETED, 1)] }

end PostgresStore

section ListHelpers

variable {α : Type _}

theorem filter_eq_of_filter_ne {f : α → String} {a : String} (l : List α) :
    ((l.filter fun x => f x != a).filter fun x => f x == a) = [] := by
  induction l with
  | nil => rfl
  | cons x t ih =>
    by_cases h : f x = a
    · have hb : (f x != a) = false := by simp [h]
      simp [List.filter_cons, hb, ih]
    · have hb : (f x != a) = true := by simp [h]
      have hb2 : (f x == a) = false := by simp [h]
      simp [List.filter_cons, hb, hb2, ih]

theorem find?_filter_ne {f : α → String} {a : String} (l : List α) :
    ((l.filter fun x => f x != a).find? fun x => f x == a) = none := by
  rw [List.find?_eq_none]
  intro x hx
  have := (List.mem_filter.mp hx).2
  simpa [bne] using this

theorem find?_map_update {p : α → Bool} (u : α → α) (hu : ∀ r, p r = true → p (u r) = true)
    (l : List α) :
    ((l.map fun r => if p r then u r else r).find? p) = (l.find? p).map u := by
  induction l with
  | nil => rfl
  | cons x t ih =>
    by_cases h : p x
    · simp [List.find?, h, hu x h]
    · simp [List.find?, h, ih]

theorem find?_map_const {p : α → Bool} {v : α} (hv : p v = true) (l : List α) :
    ((l.map fun r => if p r then v else r).find? p) = (l.find? p).map fun _ => v := by
  induction l with
  | nil => rfl
  | cons x t ih =>
    by_cases h : p x
    · simp [List.find?, h, hv]
    · simp [List.find?, h, ih]

theorem any_map_upsert {p : α → Bool} {v : α} (hv : p v = true) {l : List α}
    (h : l.any p = true) : ((l.map fun r => if p r then v else r).any p) = true := by
  obtain ⟨x, hx, hpx⟩ := List.any_eq_true.mp h
  refine List.any_eq_true.mpr ⟨v, ?_, hv⟩
  exact List.mem_map.mpr ⟨x, hx, by simp [hpx]⟩

theorem map_upsert_idem {p : α → Bool} {v : α} (hv : p v = true) (l : List α) :
    ((l.map fun r => if p r then v else r).map fun r => if p r then v else r) =
      l.map fun r => if p r then v else r := by
  rw [List.map_map]
  refine List.map_congr_left fun x _ => ?_
  by_cases h : p x <;> simp [Function.comp, h, hv]

theorem map_id_of_any_false {p : α → Bool} {v : α} {l : List α} (h : l.any p = false) :
    (l.map fun r => if p r then v else r) = l := by
  have hall := List.any_eq_false.mp h
  have h1 : (l.map fun r => if p r then v else r) = l.map id :=
    List.map_congr_left fun x hx => by simp [hall x hx]
  rw [h1, List.map_id]

theorem countP_add_countP_not (p : α → Bool) (l : List α) :
    l.countP p + l.countP (fun a => !(p a)) = l.length := by
  induction l with
  | nil => rfl
  | cons x t ih =>
    cases h : p x <;> simp [List.countP_cons, h] <;> omega

theorem countP_filter_ne [DecidableEq α] {n k : α} (hne : n ≠ k) (l : List α) :
    (l.filter fun a => !(a == k)).countP (fun x => x == n) = l.countP (fun x => x == n) := by
  induction l with
  | nil => rfl
  | cons y t ih =>
    by_cases hyk : y = k
    · have h1 : (!(y == k)) = false := by simp [hyk]
      have h2 : (y == n) = false := by
        refine beq_eq_false_iff_ne.mpr ?_
        rw [hyk]
        exact fun hkn2 => hne hkn2.symm
      simp [List.filter_cons, List.countP_cons, h1, h2, ih]
    · have h1 : (!(y == k)) = true := by simp [hyk]
      simp [List.filter_cons, List.countP_cons, h1, ih]

theorem sum_countP_keys [DecidableEq α] :
    ∀ (keys : List α) (l : List α), keys.Nodup → (∀ x ∈ l, x ∈ keys) →
      (keys.map fun n => l.countP (fun x => x == n)).sum = l.length
  | [], l, _, hc => by
    have : l = [] := List.eq_nil_iff_forall_not_mem.mpr fun x hx => by
      simpa using hc x hx
    simp [this]
  | k :: ks, l, hn, hc => by
    have hkn : k ∉ ks := (List.nodup_cons.mp hn).1
    have hks : ks.Nodup := (List.nodup_cons.mp hn).2
    have hrest : ∀ x ∈ l.filter (fun a => !(a == k)), x ∈ ks := by
      intro x hx
      obtain ⟨hxl, hxk⟩ := List.mem_filter.mp hx
      have hxkk : x ≠ k := by simpa using hxk
      rcases List.mem_cons.mp (hc x hxl) with h | h
      · exact absurd h hxkk
      · exact h
    have ihs := sum_countP_keys ks (l.filter (fun a => !(a == k))) hks hrest
    have hmap : (ks.map fun n => l.countP (fun x => x == n)).sum =
        (l.filter (fun a => !(a == k))).length := by
      rw [← ihs]
      refine congrArg List.sum (List.map_congr_left fun n hnk => ?_)
      exact (countP_filter_ne (fun h : n = k => hkn (h ▸ hnk)) l).symm
    have hpart := countP_add_countP_not (fun x => x == k) l
    rw [List.map_cons, List.sum_cons, hmap, ← List.countP_eq_length_filter]
    exact hpart

end ListHelpers

theorem jsIntOrNone_eq_self {x : Option Int} (h : x ≠ some 0) : jsIntOrNone x = x := by
  cases x with
  | none => rfl
  | some n =>
    have : n ≠ 0 := fun hn => h (by rw [hn])
    simp [jsIntOrNone, this]

theorem jsStrOrNone_eq_self {x : Option String} (h : x ≠ some "") : jsStrOrNone x = x := by
  cases x with
  | none => rfl
  | some s =>
    have : s ≠ "" := fun hs => h (by rw [hs])
    simp [jsStrOrNone, this]

namespace PostgresStore

theorem mem_messageRowsOf {aid : String} {genId : Nat → String} {now : Int} :
    ∀ {msgs : List Message} {k : Nat} {r : MessageRow},
      r ∈ messageRowsOf aid msgs genId now k → r.agent_id = aid ∧ k ≤ r.seq
  | [], _, _, h => by simp [messageRowsOf] at h
  | m :: rest, k, r, h => by
    rcases List.mem_cons.mp h with h | h
    · subst h
      exact ⟨rfl, Nat.le_refl _⟩
    · obtain ⟨h1, h2⟩ := mem_messageRowsOf h
      exact ⟨h1, Nat.le_of_succ_le h2⟩

theorem messageRowsOf_filter_eq (aid : String) (msgs : List Message) (genId : Nat → String)
    (now : Int) (k : Nat) :
    ((messageRowsOf aid msgs genId now k).filter fun m => m.agent_id == aid) =
      messageRowsOf aid msgs genId now k := by
  rw [List.filter_eq_self]
  intro r hr
  simp [(mem_messageRowsOf hr).1]

theorem messageRowsOf_sorted (aid : String) (genId : Nat → String) (now : Int) :
    ∀ (msgs : List Message) (k : Nat),
      List.Sorted (fun a b : MessageRow => a.seq ≤ b.seq) (messageRowsOf aid msgs genId now k)
  | [], _ => List.sorted_nil
  | m :: rest, k => by
    rw [messageRowsOf, List.sorted_cons]
    refine ⟨fun b hb => ?_, messageRowsOf_sorted aid genId now rest (k + 1)⟩
    have := (mem_messageRowsOf hb).2
    show (messageRowOf aid m (genId k) k now).seq ≤ b.seq
    simp only [messageRowOf]
    omega

theorem messageRowsOf_map_message (aid : String) (genId : Nat → String) (now : Int) :
    ∀ (msgs : List Message) (k : Nat),
      ((messageRowsOf aid msgs genId now k).map fun row =>
        ({ role := row.role, content := row.content, metadata := row.metadata } : Message)) = msgs
  | [], _ => rfl
  | m :: rest, k => by
    rw [messageRowsOf, List.map_cons, messageRowsOf_map_message aid genId now rest (k + 1)]
    rfl

theorem messageRowsOf_map_seq (aid : String) (genId : Nat → String) (now : Int) :
    ∀ (msgs : List Message) (k : Nat),
      ((messageRowsOf aid msgs genId now k).map fun m => m.seq) = List.range' k msgs.length
  | [], _ => rfl
  | m :: rest, k => by
    rw [messageRowsOf, List.map_cons, messageRowsOf_map_seq aid genId now rest (k + 1)]
    rfl

theorem messageRowsOf_map_id (aid : String) (genId : Nat → String) (now : Int) :
    ∀ (msgs : List Message) (k : Nat),
      ((messageRowsOf aid msgs genId now k).map fun m => m.id) =
        (List.range' k msgs.length).map genId
  | [], _ => rfl
  | m :: rest, k => by
    rw [messageRowsOf, List.map_cons, messageRowsOf_map_id aid genId now rest (k + 1)]
    rfl

theorem insertMessageRow_ok {db db1 : DB} {row : MessageRow}
    (h : insertMessageRow db row = .ok db1) :
    db1 = { db with messages := db.messages ++ [row] } ∧
      (db.messages.any fun m => m.agent_id == row.agent_id && m.seq == row.seq) = false := by
  unfold insertMessageRow at h
  by_cases h1 : (db.messages.any fun m => m.id == row.id) = true
  · rw [if_pos h1] at h
    exact absurd h (by simp)
  · rw [if_neg h1] at h
    by_cases h2 : (db.messages.any fun m => m.agent_id == row.agent_id && m.seq == row.seq) = true
    · rw [if_pos h2] at h
      exact absurd h (by simp)
    · rw [if_neg h2] at h
      by_cases h3 : (findAgent db row.agent_id).isNone = true
      · rw [if_pos h3] at h
        exact absurd h (by simp)
      · rw [if_neg h3] at h
        refine ⟨(Except.ok.inj h).symm, by simpa using h2⟩

theorem insertMessageRows_ok {aid : String} {genId : Nat → String} {now : Int} :
    ∀ {msgs : List Message} {k : Nat} {db db2 : DB},
      insertMessageRows db aid msgs genId now k = (db2, none) →
      db2 = { db with messages := db.messages ++ messageRowsOf aid msgs genId now k }
  | [], k, db, db2, h => by
    simp only [insertMessageRows] at h
    have h1 : db = db2 := congrArg Prod.fst h
    simp [← h1, messageRowsOf]
  | m :: rest, k, db, db2, h => by
    rw [insertMessageRows] at h
    cases hins : insertMessageRow db (messageRowOf aid m (genId k) k now) with
    | error e =>
      rw [hins] at h
      have := congrArg Prod.snd h
      simp at this
    | ok dbx =>
      rw [hins] at h
      obtain ⟨hx, -⟩ := insertMessageRow_ok hins
      have := insertMessageRows_ok h
      subst hx
      rw [this, messageRowsOf]
      simp [List.append_assoc]

theorem insertMessageRows_uniq {aid : String} {genId : Nat → String} {now : Int} :
    ∀ {msgs : List Message} {k : Nat} {db db2 : DB},
      UniqAgentSeq db.messages →
      insertMessageRows db aid msgs genId now k = (db2, none) →
      UniqAgentSeq db2.messages
  | [], k, db, db2, hu, h => by
    simp only [insertMessageRows] at h
    have h1 : db = db2 := congrArg Prod.fst h
    exact h1 ▸ hu
  | m :: rest, k, db, db2, hu, h => by
    rw [insertMessageRows] at h
    cases hins : insertMessageRow db (messageRowOf aid m (genId k) k now) with
    | error e =>
      rw [hins] at h
      have := congrArg Prod.snd h
      simp at this
    | ok dbx =>
      rw [hins] at h
      obtain ⟨hx, hchk⟩ := insertMessageRow_ok hins
      refine insertMessageRows_uniq ?_ h
      rw [hx]
      show UniqAgentSeq (db.messages ++ [messageRowOf aid m (genId k) k now])
      rw [UniqAgentSeq, List.pairwise_append]
      refine ⟨hu, List.pairwise_singleton _ _, fun a ha b hb => ?_⟩
      rw [List.mem_singleton] at hb
      subst hb
      have := List.any_eq_false.mp hchk a ha
      intro hcon
      exact this (by simp [hcon.1, hcon.2])

theorem saveMessages_ok {db db' : DB} {aid : String} {msgs : List Message}
    {genId : Nat → String} {now : Int}
    (h : saveMessages db aid msgs genId now = (db', none)) :
    db.ready = true ∧
      db' = { db with
        messages := (db.messages.filter fun m => m.agent_id != aid) ++
          messageRowsOf aid msgs genId now 0
        agents := db.agents.map fun r =>
          if r.agent_id == aid then { r with message_count := (msgs.length : Int) } else r } := by
  unfold saveMessages at h
  by_cases hr : db.ready = false
  · rw [if_pos hr] at h
    have := congrArg Prod.snd h
    simp at this
  · rw [if_neg hr] at h
    refine ⟨by simpa using hr, ?_⟩
    cases hrows : insertMessageRows
        { db with messages := db.messages.filter fun m => m.agent_id != aid }
        aid msgs genId now 0 with
    | mk db2 oe =>
      cases oe with
      | some e =>
        rw [hrows] at h
        have := congrArg Prod.snd h
        simp at this
      | none =>
        rw [hrows] at h
        have h1 : updateMessageCount db2 aid (msgs.length : Int) = db' := congrArg Prod.fst h
        rw [← h1, insertMessageRows_ok hrows]
        rfl

theorem saveMessages_err {db db' : DB} {aid : String} {msgs : List Message}
    {genId : Nat → String} {now : Int} {e : DbError}
    (h : saveMessages db aid msgs genId now = (db', some e)) : db' = db := by
  unfold saveMessages at h
  by_cases hr : db.ready = false
  · rw [if_pos hr] at h
    exact (congrArg Prod.fst h).symm
  · rw [if_neg hr] at h
    cases hrows : insertMessageRows
        { db with messages := db.messages.filter fun m => m.agent_id != aid }
        aid msgs genId now 0 with
    | mk db2 oe =>
      cases oe with
      | some e2 => rw [hrows] at h; exact (congrArg Prod.fst h).symm
      | none =>
        rw [hrows] at h
        have := congrArg Prod.snd h
        simp at this

theorem loadMessages_after_saveMessages {db db' : DB} {aid : String} {msgs : List Message}
    {genId : Nat → String} {now : Int}
    (h : saveMessages db aid msgs genId now = (db', none)) :
    loadMessages db' aid = .ok msgs := by
  obtain ⟨hready, hdb⟩ := saveMessages_ok h
  subst hdb
  simp only [loadMessages, hready, Bool.true_eq_false, if_false, List.filter_append,
    filter_eq_of_filter_ne, List.nil_append, messageRowsOf_filter_eq]
  rw [(messageRowsOf_sorted aid genId now msgs 0).insertionSort_eq]
  rw [messageRowsOf_map_message]

theorem findAgent_after_saveMessages {db db' : DB} {aid : String} {msgs : List Message}
    {genId : Nat → String} {now : Int}
    (h : saveMessages db aid msgs genId now = (db', none)) :
    findAgent db' aid =
      (findAgent db aid).map fun r => { r with message_count := (msgs.length : Int) } := by
  obtain ⟨-, hdb⟩ := saveMessages_ok h
  subst hdb
  exact @find?_map_update AgentRow (fun r => r.agent_id == aid)
    (fun r => { r with message_count := (msgs.length : Int) }) (fun r hr => hr) db.agents

end PostgresStore

open PostgresStore in
/-- C1: `saveMessages` is atomic.  On success the stored message list of the
agent is exactly the rows built from `M` and the `message_count` field of the
agent's `agents` row is simultaneously set to `len(M)`; if any underlying
statement errors the transaction rolls back fully — the caller's state is
unchanged and the original error is re-surfaced — so no caller observes a
partial replacement. -/
theorem saveMessages_atomic (db : DB) (aid : String) (msgs : List Message)
    (genId : Nat → String) (now : Int) :
    (∀ db', saveMessages db aid msgs genId now = (db', none) →
      (db'.messages.filter fun m => m.agent_id == aid) = messageRowsOf aid msgs genId now 0 ∧
      findAgent db' aid =
        (findAgent db aid).map (fun r => { r with message_count := (msgs.length : Int) })) ∧
    (∀ db' e, saveMessages db aid msgs genId now = (db', some e) → db' = db) := by
  constructor
  · intro db' h
    obtain ⟨hready, hdb⟩ := saveMessages_ok h
    refine ⟨?_, findAgent_after_saveMessages h⟩
    rw [hdb]
    simp only [List.filter_append, filter_eq_of_filter_ne, List.nil_append,
      messageRowsOf_filter_eq]
  · intro db' e h
    exact saveMessages_err h

open PostgresStore in
/-- C1 witness: on the concrete one-agent store the successful save replaces
the rows and sets the count, and a save against the uninitialized store
leaves the state untouched. -/
theorem saveMessages_atomic_witness :
    (((saveMessages wDB "a" wMsgs wGen 7).1.messages.filter fun m => m.agent_id == "a") =
        messageRowsOf "a" wMsgs wGen 7 0 ∧
      findAgent (saveMessages wDB "a" wMsgs wGen 7).1 "a" =
        (findAgent wDB "a").map (fun r => { r with message_count := (2 : Int) })) ∧
    (saveMessages wDBNotReady "a" wMsgs wGen 7).1 = wDBNotReady :=
  ⟨(saveMessages_atomic wDB "a" wMsgs wGen 7).1 _ rfl,
   (saveMessages_atomic wDBNotReady "a" wMsgs wGen 7).2 _ _ rfl⟩

open PostgresStore in
/-- C2: for an existing agent, after a successful `saveMessages(A, M)`,
`loadMessages(A)` returns exactly `M` in order (role, content and metadata
preserved) and `loadInfo(A).messageCount` equals `len(M)`. -/
theorem saveMessages_then_load_roundtrip (db db' : DB) (aid : String) (msgs : List Message)
    (genId : Nat → String) (now : Int)
    (hex : PostgresStore.exists db aid = .ok true)
    (hsave : saveMessages db aid msgs genId now = (db', none)) :
    loadMessages db' aid = .ok msgs ∧
    Except.map (fun o => Option.map AgentInfo.messageCount o) (loadInfo db' aid) =
      .ok (some (msgs.length : Int)) := by
  refine ⟨loadMessages_after_saveMessages hsave, ?_⟩
  have hready : db'.ready = true := by
    obtain ⟨hr, hdb⟩ := saveMessages_ok hsave
    rw [hdb]
    exact hr
  have hfind := findAgent_after_saveMessages hsave
  unfold PostgresStore.exists at hex
  by_cases hr0 : db.ready = false
  · rw [if_pos hr0] at hex
    exact absurd hex (by simp)
  · rw [if_neg hr0] at hex
    have hsome : (findAgent db aid).isSome = true := by
      have := Except.ok.inj hex
      simpa using this
    obtain ⟨r, hrr⟩ := Option.isSome_iff_exists.mp hsome
    simp only [loadInfo, hready, Bool.true_eq_false, if_false, hfind, hrr, Option.map_some,
      Except.map]
    rfl

open PostgresStore in
/-- C2 witness: the round trip evaluated on the concrete one-agent store with
two messages. -/
theorem saveMessages_then_load_roundtrip_witness :
    loadMessages (saveMessages wDB "a" wMsgs wGen 7).1 "a" = .ok wMsgs ∧
    Except.map (fun o => Option.map AgentInfo.messageCount o)
        (loadInfo (saveMessages wDB "a" wMsgs wGen 7).1 "a") = .ok (some (2 : Int)) :=
  saveMessages_then_load_roundtrip wDB _ "a" wMsgs wGen 7 rfl rfl

open PostgresStore in
/-- C10: a successful `saveMessages(A, M)` stores rows whose sequence numbers
are exactly the contiguous zero-based positions `0..len(M)-1`, whose ids are
the outputs of one fresh `generateMessageId()` call per message, preserves
the pairwise uniqueness of `(agent_id, seq)` guaranteed by the unique index,
and `ORDER BY seq ASC` in `loadMessages` reproduces the saved order. -/
theorem saveMessages_seq_contiguous (db db' : DB) (aid : String) (msgs : List Message)
    (genId : Nat → String) (now : Int)
    (huniq : UniqAgentSeq db.messages)
    (hsave : saveMessages db aid msgs genId now = (db', none)) :
    ((db'.messages.filter fun m => m.agent_id == aid).map fun m => m.seq) =
      List.range msgs.length ∧
    ((db'.messages.filter fun m => m.agent_id == aid).map fun m => m.id) =
      (List.range msgs.length).map genId ∧
    UniqAgentSeq db'.messages ∧
    loadMessages db' aid = .ok msgs := by
  obtain ⟨hready, hdb⟩ := saveMessages_ok hsave
  have hfilter : (db'.messages.filter fun m => m.agent_id == aid) =
      messageRowsOf aid msgs genId now 0 := by
    rw [hdb]
    simp only [List.filter_append, filter_eq_of_filter_ne, List.nil_append,
      messageRowsOf_filter_eq]
  refine ⟨?_, ?_, ?_, loadMessages_after_saveMessages hsave⟩
  · rw [hfilter, messageRowsOf_map_seq, List.range_eq_range']
  · rw [hfilter, messageRowsOf_map_id, List.range_eq_range']
  · -- re-run the transaction body to recover the per-insert uniqueness checks
    unfold saveMessages at hsave
    rw [if_neg (by simp [hready])] at hsave
    cases hrows : insertMessageRows
        { db with messages := db.messages.filter fun m => m.agent_id != aid }
        aid msgs genId now 0 with
    | mk db2 oe =>
      cases oe with
      | some e =>
        rw [hrows] at hsave
        have := congrArg Prod.snd hsave
        simp at this
      | none =>
        rw [hrows] at hsave
        have huniq1 : UniqAgentSeq (db.messages.filter fun m => m.agent_id != aid) :=
          huniq.sublist (List.filter_sublist _)
        have huniq2 := insertMessageRows_uniq huniq1 hrows
        have h1 : updateMessageCount db2 aid (msgs.length : Int) = db' :=
          congrArg Prod.fst hsave
        rw [← h1]
        exact huniq2

open PostgresStore in
/-- C10 witness: evaluated on the concrete one-agent store with two
messages. -/
theorem saveMessages_seq_contiguous_witness :
    ((((saveMessages wDB "a" wMsgs wGen 7).1.messages.filter fun m => m.agent_id == "a").map
        fun m => m.seq) = List.range 2) ∧
    ((((saveMessages wDB "a" wMsgs wGen 7).1.messages.filter fun m => m.agent_id == "a").map
        fun m => m.id) = ["m0", "m1"]) :=
  ⟨(saveMessages_seq_contiguous wDB _ "a" wMsgs wGen 7 (List.Pairwise.nil) rfl).1,
   ((saveMessages_seq_contiguous wDB _ "a" wMsgs wGen 7 (List.Pairwise.nil) rfl).2.1).trans
     (by decide)⟩

open PostgresStore in
/-- C3: after `delete(A)`, `exists(A)` is false and every dependent entity is
gone: `loadMessages(A)`, `loadToolCallRecords(A)` and `listSnapshots(A)` all
return the empty list — the `ON DELETE CASCADE` foreign keys leave no
orphaned dependent rows. -/
theorem delete_removes_dependents (db db' : DB) (aid : String)
    (hdel : delete db aid = .ok db') :
    PostgresStore.exists db' aid = .ok false ∧
    loadMessages db' aid = .ok [] ∧
    loadToolCallRecords db' aid = .ok [] ∧
    listSnapshots db' aid = .ok [] := by
  unfold delete at hdel
  by_cases hr : db.ready = false
  · rw [if_pos hr] at hdel
    exact absurd hdel (by simp)
  · rw [if_neg hr] at hdel
    obtain rfl := Except.ok.inj hdel
    have hready : db.ready = true := by simpa using hr
    refine ⟨?_, ?_, ?_, ?_⟩
    · simp only [PostgresStore.exists, findAgent, hready, Bool.true_eq_false, if_false]
      rw [find?_filter_ne]
      rfl
    · simp only [loadMessages, hready, Bool.true_eq_false, if_false, filter_eq_of_filter_ne]
      rfl
    · simp only [loadToolCallRecords, hready, Bool.true_eq_false, if_false,
        filter_eq_of_filter_ne]
      rfl
    · simp only [listSnapshots, hready, Bool.true_eq_false, if_false, filter_eq_of_filter_ne]
      rfl

open PostgresStore in
/-- C3 witness: deleting the concrete agent `"a"` empties every view of it. -/
theorem delete_removes_dependents_witness :
    PostgresStore.exists (DB.mk true [] [] [] []) "a" = .ok false ∧
    loadMessages (DB.mk true [] [] [] []) "a" = .ok [] ∧
    loadToolCallRecords (DB.mk true [] [] [] []) "a" = .ok [] ∧
    listSnapshots (DB.mk true [] [] [] []) "a" = .ok [] :=
  delete_removes_dependents wDB (DB.mk true [] [] [] []) "a" rfl

open PostgresStore in
/-- C4 counterexample: `saveInfo(A, info)` keys the inserted row by
`info.agentId`, ignoring the `A` argument, so with `A = "a"` and
`info.agentId = "b"` the subsequent `loadInfo("a")` returns `undefined`
rather than a value equal to `info` — the claim fails as universally
stated. -/
theorem saveInfo_ignores_agentId_argument :
    ((saveInfo wDBEmpty "a" cexInfoB).bind fun db1 => loadInfo db1 "a") = .ok none ∧
    (Except.ok (none : Option AgentInfo) : Except DbError (Option AgentInfo)) ≠
      .ok (some cexInfoB) :=
  ⟨rfl, by simp⟩

open PostgresStore in
/-- C4 (amended): provided `info.agentId = A`, after `saveInfo(A, info)`,
`loadInfo(A)` returns a value equal to `info` on every field, including the
nested lineage list, metadata document, `createdAt`, `configVersion`,
`messageCount`, `lastSfpIndex`, `lastBookmark` and `breakpoint`. -/
theorem saveInfo_loadInfo_roundtrip (db db' : DB) (aid : String) (info : AgentInfo)
    (hid : info.agentId = aid)
    (hsave : saveInfo db aid info = .ok db') :
    loadInfo db' aid = .ok (some info) := by
  subst hid
  unfold saveInfo at hsave
  by_cases hr : db.ready = false
  · rw [if_pos hr] at hsave
    exact absurd hsave (by simp)
  · rw [if_neg hr] at hsave
    have hready : db.ready = true := by simpa using hr
    have hbeq : ((agentRowOf info).agent_id == info.agentId) = true := by
      simp [agentRowOf]
    by_cases hany : (db.agents.any fun r => r.agent_id == info.agentId) = true
    · rw [if_pos hany] at hsave
      obtain rfl := Except.ok.inj hsave
      obtain ⟨x, hx, hpx⟩ := List.any_eq_true.mp hany
      have hfind : (db.agents.find? fun r => r.agent_id == info.agentId).isSome = true :=
        List.find?_isSome.mpr ⟨x, hx, hpx⟩
      obtain ⟨r0, hr0⟩ := Option.isSome_iff_exists.mp hfind
      have hfm := @find?_map_const AgentRow (fun r => r.agent_id == info.agentId)
        (agentRowOf info) hbeq db.agents
      simp only [loadInfo, findAgent, hready, Bool.true_eq_false, if_false]
      rw [hfm, hr0]
      rfl
    · rw [if_neg hany] at hsave
      obtain rfl := Except.ok.inj hsave
      have h1 : (db.agents.find? fun r => r.agent_id == info.agentId) = none :=
        List.find?_eq_none.mpr fun x hx h => (List.any_eq_false.mp
          (Bool.eq_false_iff.mpr hany) x hx) h
      simp only [loadInfo, findAgent, hready, Bool.true_eq_false, if_false, List.find?_append,
        h1, Option.none_or]
      have h2 : List.find? (fun r => r.agent_id == info.agentId) [agentRowOf info] =
          some (agentRowOf info) := by
        simp [List.find?, hbeq]
      rw [h2]
      rfl

open PostgresStore in
/-- C4 witness: the amended round trip evaluated for the concrete info record
keyed `"b"`, including its nested bookmark, breakpoint, lineage and
metadata. -/
theorem saveInfo_loadInfo_roundtrip_witness :
    loadInfo (DB.mk true [agentRowOf cexInfoB] [] [] []) "b" = .ok (some cexInfoB) :=
  saveInfo_loadInfo_roundtrip wDBEmpty (DB.mk true [agentRowOf cexInfoB] [] [] []) "b"
    cexInfoB rfl rfl

open PostgresStore in
/-- C5: `saveInfo` and `saveSnapshot` are idempotent upserts — running either
twice with identical id and content yields exactly the state of running it
once (the second call overwrites the single existing row instead of creating
a duplicate), so `loadInfo`, `loadSnapshot` and `listSnapshots` are unchanged
by the repetition. -/
theorem saveInfo_saveSnapshot_idempotent (db : DB) (aid : String) (info : AgentInfo)
    (s : Snapshot) :
    ((saveInfo db aid info).bind fun db1 => saveInfo db1 aid info) = saveInfo db aid info ∧
    ((saveSnapshot db aid s).bind fun db1 => saveSnapshot db1 aid s) = saveSnapshot db aid s := by
  constructor
  · unfold saveInfo
    by_cases hr : db.ready = false
    · rw [if_pos hr]
      rfl
    · rw [if_neg hr]
      have hbeq : ((agentRowOf info).agent_id == info.agentId) = true := by
        simp [agentRowOf]
      by_cases hany : (db.agents.any fun r => r.agent_id == info.agentId) = true
      · rw [if_pos hany]
        simp only [Except.bind]
        have hup := @any_map_upsert AgentRow (fun r => r.agent_id == info.agentId)
          (agentRowOf info) hbeq db.agents hany
        have hidem := @map_upsert_idem AgentRow (fun r => r.agent_id == info.agentId)
          (agentRowOf info) hbeq db.agents
        rw [if_neg (by simpa using hr), if_pos hup, hidem]
      · rw [if_neg hany]
        simp only [Except.bind]
        have h2 : ((db.agents ++ [agentRowOf info]).any fun r => r.agent_id == info.agentId)
            = true := by
          simp [List.any_append, hbeq]
        rw [if_neg (by simpa using hr), if_pos h2]
        have h3 : ((db.agents ++ [agentRowOf info]).map fun r =>
            if r.agent_id == info.agentId then agentRowOf info else r) =
              db.agents ++ [agentRowOf info] := by
          rw [List.map_append]
          congr 1
          · exact map_id_of_any_false (Bool.eq_false_iff.mpr hany)
          · simp [hbeq]
        rw [h3]
  · unfold saveSnapshot
    by_cases hr : db.ready = false
    · rw [if_pos hr]
      rfl
    · rw [if_neg hr]
      have hbeq : (((snapshotRowOf aid s).agent_id == aid) &&
          ((snapshotRowOf aid s).snapshot_id == s.id)) = true := by
        simp [snapshotRowOf]
      by_cases hc : (db.snapshots.any fun r => r.agent_id == aid && r.snapshot_id == s.id)
          = true
      · rw [if_pos hc]
        simp only [Except.bind]
        have hup := @any_map_upsert SnapshotRow
          (fun r => r.agent_id == aid && r.snapshot_id == s.id) (snapshotRowOf aid s) hbeq
          db.snapshots hc
        have hidem := @map_upsert_idem SnapshotRow
          (fun r => r.agent_id == aid && r.snapshot_id == s.id) (snapshotRowOf aid s) hbeq
          db.snapshots
        rw [if_neg (by simpa using hr), if_pos hup, hidem]
      · rw [if_neg hc]
        by_cases hfk : (findAgent db aid).isNone = true
        · rw [if_pos hfk]
          rfl
        · rw [if_neg hfk]
          simp only [Except.bind]
          have h2 : ((db.snapshots ++ [snapshotRowOf aid s]).any fun r =>
              r.agent_id == aid && r.snapshot_id == s.id) = true := by
            refine List.any_eq_true.mpr ⟨snapshotRowOf aid s, ?_, hbeq⟩
            exact List.mem_append_right _ (List.mem_singleton_self _)
          rw [if_neg (by simpa using hr), if_pos h2]
          have h3 : ((db.snapshots ++ [snapshotRowOf aid s]).map fun r =>
              if r.agent_id == aid && r.snapshot_id == s.id then snapshotRowOf aid s else r) =
                db.snapshots ++ [snapshotRowOf aid s] := by
            rw [List.map_append]
            congr 1
            · exact map_id_of_any_false (Bool.eq_false_iff.mpr hc)
            · simp [hbeq]
          rw [h3]

namespace PostgresStore

theorem insertToolCallRow_ok {db db1 : DB} {row : ToolCallRow}
    (h : insertToolCallRow db row = .ok db1) :
    db1 = { db with tool_calls := db.tool_calls ++ [row] } := by
  unfold insertToolCallRow at h
  by_cases h1 : (db.tool_calls.any fun t => t.id == row.id) = true
  · rw [if_pos h1] at h
    exact absurd h (by simp)
  · rw [if_neg h1] at h
    by_cases h2 : (findAgent db row.agent_id).isNone = true
    · rw [if_pos h2] at h
      exact absurd h (by simp)
    · rw [if_neg h2] at h
      exact (Except.ok.inj h).symm

theorem insertToolCallRows_ok {aid : String} :
    ∀ {records : List ToolCallRecord} {db db2 : DB},
      insertToolCallRows db aid records = (db2, none) →
      db2 = { db with tool_calls := db.tool_calls ++ records.map (toolCallRowOf aid) }
  | [], db, db2, h => by
    simp only [insertToolCallRows] at h
    have h1 : db = db2 := congrArg Prod.fst h
    simp [← h1]
  | r :: rest, db, db2, h => by
    rw [insertToolCallRows] at h
    cases hins : insertToolCallRow db (toolCallRowOf aid r) with
    | error e =>
      rw [hins] at h
      have := congrArg Prod.snd h
      simp at this
    | ok dbx =>
      rw [hins] at h
      have hx := insertToolCallRow_ok hins
      have := insertToolCallRows_ok h
      subst hx
      rw [this]
      simp [List.append_assoc]

theorem saveToolCallRecords_ok {db db' : DB} {aid : String} {records : List ToolCallRecord}
    (h : saveToolCallRecords db aid records = (db', none)) :
    db.ready = true ∧
      db' = { db with
        tool_calls := (db.tool_calls.filter fun t => t.agent_id != aid) ++
          records.map (toolCallRowOf aid) } := by
  unfold saveToolCallRecords at h
  by_cases hr : db.ready = false
  · rw [if_pos hr] at h
    have := congrArg Prod.snd h
    simp at this
  · rw [if_neg hr] at h
    refine ⟨by simpa using hr, ?_⟩
    cases hrows : insertToolCallRows
        { db with tool_calls := db.tool_calls.filter fun t => t.agent_id != aid }
        aid records with
    | mk db2 oe =>
      cases oe with
      | some e =>
        rw [hrows] at h
        have := congrArg Prod.snd h
        simp at this
      | none =>
        rw [hrows] at h
        have h1 : db2 = db' := congrArg Prod.fst h
        rw [← h1, insertToolCallRows_ok hrows]

theorem toolCallRecord_roundtrip {aid : String} {r : ToolCallRecord}
    (h1 : r.error ≠ some "") (h2 : r.startedAt ≠ some 0) (h3 : r.completedAt ≠ some 0)
    (h4 : r.durationMs ≠ some 0) :
    toolCallRecordOfRow (toolCallRowOf aid r) = r := by
  simp only [toolCallRecordOfRow, toolCallRowOf, jsStrOrNone_eq_self h1,
    jsIntOrNone_eq_self h2, jsIntOrNone_eq_self h3, jsIntOrNone_eq_self h4]

theorem mem_listWhere {agents : List AgentRow} {pre : Option String} {r : AgentRow} :
    r ∈ listWhere agents pre ↔ r ∈ agents ∧ listSelects pre r.agent_id = true := by
  cases pre with
  | none => simp [listWhere, listSelects]
  | some p =>
    by_cases hp : p ≠ ""
    · simp [listWhere, listSelects, hp, List.mem_filter]
    · simp [listWhere, listSelects, hp]

end PostgresStore

open PostgresStore in
/-- C6: the claim fails on the code: `record.durationMs || null` collapses a
legitimate `durationMs = 0` to SQL `NULL`, which `loadToolCallRecords` reads
back as an absent value — the scalar field does not round-trip.  Here the
save succeeds, yet the loaded record's `durationMs` is `none` while the saved
record's was `some 0`. -/
theorem toolcall_duration_zero_collapses :
    (saveToolCallRecords wDB "a" [wRecDur0]).2 = none ∧
    Except.map (fun l => l.map fun t => t.durationMs)
        (loadToolCallRecords (saveToolCallRecords wDB "a" [wRecDur0]).1 "a") =
      .ok [(none : Option Int)] ∧
    wRecDur0.durationMs = some 0 ∧ (none : Option Int) ≠ some 0 :=
  ⟨rfl, rfl, rfl, by decide⟩

open PostgresStore in
/-- C6 (amended): after a successful `saveToolCallRecords(A, R)`, every
record of `R` whose optional scalar fields avoid the JS-falsy collapse
(`error ≠ ""`, `startedAt ≠ 0`, `completedAt ≠ 0`, `durationMs ≠ 0`) is
returned by `loadToolCallRecords(A)` with all document-valued fields
(`input`, `approval`, `result`, `auditTrail`) and scalar fields structurally
identical. -/
theorem saveToolCallRecords_roundtrip (db db' : DB) (aid : String)
    (records recs : List ToolCallRecord) (r : ToolCallRecord)
    (hsave : saveToolCallRecords db aid records = (db', none))
    (hload : loadToolCallRecords db' aid = .ok recs)
    (hr : r ∈ records)
    (h1 : r.error ≠ some "") (h2 : r.startedAt ≠ some 0) (h3 : r.completedAt ≠ some 0)
    (h4 : r.durationMs ≠ some 0) :
    r ∈ recs := by
  obtain ⟨hready, hdb⟩ := saveToolCallRecords_ok hsave
  have hready' : db'.ready = true := by rw [hdb]; exact hready
  have hfilter : (db'.tool_calls.filter fun t => t.agent_id == aid) =
      records.map (toolCallRowOf aid) := by
    rw [hdb]
    show ((db.tool_calls.filter fun t => t.agent_id != aid) ++
      records.map (toolCallRowOf aid)).filter (fun t => t.agent_id == aid) = _
    rw [List.filter_append, filter_eq_of_filter_ne, List.nil_append, List.filter_eq_self.mpr]
    intro x hx
    obtain ⟨r0, hr0, hrx⟩ := List.mem_map.mp hx
    subst hrx
    simp [toolCallRowOf]
  simp only [loadToolCallRecords, hready', Bool.true_eq_false, if_false, hfilter] at hload
  obtain rfl := Except.ok.inj hload
  have hmem : toolCallRowOf aid r ∈ (records.map (toolCallRowOf aid)).insertionSort
      (fun a b => a.created_at ≤ b.created_at) :=
    (List.mem_insertionSort _).mpr (List.mem_map_of_mem _ hr)
  have := List.mem_map_of_mem toolCallRecordOfRow hmem
  rwa [toolCallRecord_roundtrip h1 h2 h3 h4] at this

open PostgresStore in
/-- C6 witness: the amended round trip evaluated for a concrete record with
non-falsy scalar fields; the load returns exactly that record. -/
theorem saveToolCallRecords_roundtrip_witness :
    loadToolCallRecords (saveToolCallRecords wDB "a" [wRecGood]).1 "a" = .ok [wRecGood] ∧
    wRecGood ∈ [wRecGood] :=
  ⟨rfl,
   saveToolCallRecords_roundtrip wDB _ "a" [wRecGood] [wRecGood] wRecGood rfl rfl
     (List.mem_singleton_self _) (by simp [wRecGood]) (by simp [wRecGood])
     (by simp [wRecGood]) (by simp [wRecGood])⟩

open PostgresStore in
/-- C7: the code contradicts the spec here.  No write of the Postgres store
consults `initPromise`/`initError`, so a write issued before `initialize()`
has created the tables does not fail with a typed NotInitialized error: the
statement fails inside PostgreSQL and the raw backend error ("relation does
not exist") is surfaced unchanged to the caller. -/
theorem writes_before_init_surface_raw_error :
    saveMessages wDBNotReady "a" wMsgs wGen 0 = (wDBNotReady, some .undefinedTable) ∧
    saveToolCallRecords wDBNotReady "a" [wRecGood] = (wDBNotReady, some .undefinedTable) ∧
    saveInfo wDBNotReady "a" cexInfoB = .error .undefinedTable ∧
    saveSnapshot wDBNotReady "a" wSnap = .error .undefinedTable ∧
    DbError.undefinedTable ≠ DbError.notInitialized :=
  ⟨rfl, rfl, rfl, rfl, by decide⟩

open PostgresStore in
/-- C8 counterexample: the prefix is interpolated raw into the `LIKE`
pattern, so `_` in it matches any one character instead of a literal
underscore: `list("a_")` returns the agent `"ab"` although `"a_"` is not a
literal string prefix of `"ab"` — the claim fails as stated. -/
theorem list_prefix_wildcard_matches :
    list (DB.mk true [{ wAgentRow with agent_id := "ab" }] [] [] []) (some "a_") =
      .ok ["ab"] ∧
    "a_".data.isPrefixOf "ab".data = false :=
  ⟨rfl, by decide⟩

open PostgresStore in
/-- C8 (amended): `list(p)` returns exactly the agentIds matching the SQL
`LIKE` pattern `p ++ "%"` (so `%`, `_` and backslash escapes inside `p` act
as `LIKE` metacharacters, not literals), ordered by `createdAt` descending;
with no prefix, or the falsy empty prefix, every agentId is returned. -/
theorem list_like_semantics (db : DB) (pre : Option String) (out : List String)
    (h : list db pre = .ok out) :
    (∀ a, a ∈ out ↔ ∃ r ∈ db.agents, r.agent_id = a ∧ listSelects pre a = true) ∧
    ∃ rows : List AgentRow, out = rows.map (fun r => r.agent_id) ∧
      List.Sorted (fun x y : AgentRow => y.created_at ≤ x.created_at) rows ∧
      ∀ r ∈ rows, r ∈ db.agents := by
  unfold list at h
  by_cases hr : db.ready = false
  · rw [if_pos hr] at h
    exact absurd h (by simp)
  · rw [if_neg hr] at h
    obtain rfl := (Except.ok.inj h).symm
    constructor
    · intro a
      constructor
      · intro ha
        obtain ⟨r, hrs, hra⟩ := List.mem_map.mp ha
        have hrw : r ∈ listWhere db.agents pre := (List.mem_insertionSort _).mp hrs
        obtain ⟨hmem, hsel⟩ := (mem_listWhere).mp hrw
        exact ⟨r, hmem, hra, hra ▸ hsel⟩
      · intro ⟨r, hmem, hra, hsel⟩
        refine List.mem_map.mpr ⟨r, ?_, hra⟩
        exact (List.mem_insertionSort _).mpr ((mem_listWhere).mpr ⟨hmem, hra ▸ hsel⟩)
    · refine ⟨(listWhere db.agents pre).insertionSort (fun a b => b.created_at ≤ a.created_at),
        rfl, ?_, ?_⟩
      · exact @List.sorted_insertionSort AgentRow (fun x y => y.created_at ≤ x.created_at)
          (fun x y => Int.decLe _ _)
          ⟨fun x y => le_total y.created_at x.created_at⟩
          ⟨fun x y z hxy hyz => le_trans hyz hxy⟩
          (listWhere db.agents pre)
      · intro r hrs
        exact ((mem_listWhere).mp ((List.mem_insertionSort _).mp hrs)).1

open PostgresStore in
/-- C8 witness: the amended semantics evaluated on a concrete two-agent
store with the wildcard prefix `"a_"`. -/
theorem list_like_semantics_witness :
    (∀ a, a ∈ ["ab"] ↔ ∃ r ∈ (DB.mk true [{ wAgentRow with agent_id := "ab" }] [] [] []).agents,
      r.agent_id = a ∧ listSelects (some "a_") a = true) ∧
    ∃ rows : List AgentRow, ["ab"] = rows.map (fun r => r.agent_id) ∧
      List.Sorted (fun x y : AgentRow => y.created_at ≤ x.created_at) rows ∧
      ∀ r ∈ rows, r ∈ (DB.mk true [{ wAgentRow with agent_id := "ab" }] [] [] []).agents :=
  list_like_semantics (DB.mk true [{ wAgentRow with agent_id := "ab" }] [] [] [])
    (some "a_") ["ab"] rfl

open PostgresStore in
/-- C9: `aggregateStats(A)` returns totals equal to the lengths of the lists
`loadMessages(A)`, `loadToolCallRecords(A)` and `listSnapshots(A)` return on
the same state, and its per-name and per-state tool-call groups each sum to
the tool-call total. -/
theorem aggregateStats_consistent (db : DB) (aid : String) (stats : AgentStats)
    (msgs : List Message) (tcs : List ToolCallRecord) (snaps : List Snapshot)
    (hs : aggregateStats db aid = .ok stats)
    (hm : loadMessages db aid = .ok msgs)
    (ht : loadToolCallRecords db aid = .ok tcs)
    (hp : listSnapshots db aid = .ok snaps) :
    stats.totalMessages = msgs.length ∧
    stats.totalToolCalls = tcs.length ∧
    stats.totalSnapshots = snaps.length ∧
    (stats.toolCallsByName.map fun x => x.2).sum = stats.totalToolCalls ∧
    (stats.toolCallsByState.map fun x => x.2).sum = stats.totalToolCalls := by
  by_cases hr : db.ready = false
  · rw [aggregateStats, if_pos hr] at hs
    exact absurd hs (by simp)
  · rw [aggregateStats, if_neg hr] at hs
    obtain rfl := (Except.ok.inj hs).symm
    rw [loadMessages, if_neg hr] at hm
    obtain rfl := (Except.ok.inj hm).symm
    rw [loadToolCallRecords, if_neg hr] at ht
    obtain rfl := (Except.ok.inj ht).symm
    rw [listSnapshots, if_neg hr] at hp
    obtain rfl := (Except.ok.inj hp).symm
    refine ⟨by simp, by simp, by simp, ?_, ?_⟩
    · show ((((db.tool_calls.filter fun t => t.agent_id == aid).map fun t => t.name).dedup.map
        fun n => (n, ((db.tool_calls.filter fun t => t.agent_id == aid).filter
          fun t => t.name == n).length)).map fun x => x.2).sum = _
      rw [List.map_map]
      have hstep : ∀ n, (((db.tool_calls.filter fun t => t.agent_id == aid).filter
          fun t => t.name == n)).length =
          ((db.tool_calls.filter fun t => t.agent_id == aid).map fun t => t.name).countP
            (fun x => x == n) := by
        intro n
        rw [← List.countP_eq_length_filter, List.countP_map]
        rfl
      have hsum := sum_countP_keys
        ((db.tool_calls.filter fun t => t.agent_id == aid).map fun t => t.name).dedup
        ((db.tool_calls.filter fun t => t.agent_id == aid).map fun t => t.name)
        (List.nodup_dedup _) (fun x hx => List.mem_dedup.mpr hx)
      calc (((db.tool_calls.filter fun t => t.agent_id == aid).map fun t => t.name).dedup.map
            fun n => (((db.tool_calls.filter fun t => t.agent_id == aid).filter
              fun t => t.name == n)).length).sum
          = (((db.tool_calls.filter fun t => t.agent_id == aid).map fun t => t.name).dedup.map
            fun n => ((db.tool_calls.filter fun t => t.agent_id == aid).map
              fun t => t.name).countP (fun x => x == n)).sum :=
            congrArg List.sum (List.map_congr_left fun n _ => hstep n)
        _ = ((db.tool_calls.filter fun t => t.agent_id == aid).map fun t => t.name).length :=
            hsum
        _ = (db.tool_calls.filter fun t => t.agent_id == aid).length := List.length_map _ _
        _ = _ := by simp
    · show ((((db.tool_calls.filter fun t => t.agent_id == aid).map fun t => t.state).dedup.map
        fun st => (st, ((db.tool_calls.filter fun t => t.agent_id == aid).filter
          fun t => t.state == st).length)).map fun x => x.2).sum = _
      rw [List.map_map]
      have hstep : ∀ st, (((db.tool_calls.filter fun t => t.agent_id == aid).filter
          fun t => t.state == st)).length =
          ((db.tool_calls.filter fun t => t.agent_id == aid).map fun t => t.state).countP
            (fun x => x == st) := by
        intro st
        rw [← List.countP_eq_length_filter, List.countP_map]
        rfl
      have hsum := sum_countP_keys
        ((db.tool_calls.filter fun t => t.agent_id == aid).map fun t => t.state).dedup
        ((db.tool_calls.filter fun t => t.agent_id == aid).map fun t => t.state)
        (List.nodup_dedup _) (fun x hx => List.mem_dedup.mpr hx)
      calc (((db.tool_calls.filter fun t => t.agent_id == aid).map fun t => t.state).dedup.map
            fun st => (((db.tool_calls.filter fun t => t.agent_id == aid).filter
              fun t => t.state == st)).length).sum
          = (((db.tool_calls.filter fun t => t.agent_id == aid).map fun t => t.state).dedup.map
            fun st => ((db.tool_calls.filter fun t => t.agent_id == aid).map
              fun t => t.state).countP (fun x => x == st)).sum :=
            congrArg List.sum (List.map_congr_left fun st _ => hstep st)
        _ = ((db.tool_calls.filter fun t => t.agent_id == aid).map fun t => t.state).length :=
            hsum
        _ = (db.tool_calls.filter fun t => t.agent_id == aid).length := List.length_map _ _
        _ = _ := by simp

open PostgresStore in
/-- C9 witness: the statistics evaluated on a concrete store holding one
message, one tool call and one snapshot for agent `"a"`. -/
theorem aggregateStats_consistent_witness :
    wStats.totalMessages = [wMsg1].length ∧
    wStats.totalToolCalls = [wRecGood].length ∧
    wStats.totalSnapshots = [wSnap].length ∧
    (wStats.toolCallsByName.map fun x => x.2).sum = wStats.totalToolCalls ∧
    (wStats.toolCallsByState.map fun x => x.2).sum = wStats.totalToolCalls :=
  aggregateStats_consistent wDBStats "a" wStats [wMsg1] [wRecGood] [wSnap] rfl rfl rfl rfl
